import Mathlib

/-!
Heart-collecting game: a model of `src/game.js`.

The game keeps two global objects, `GAME_CONFIG` and `gameState`, and mutates
them from event handlers that run to completion.  Each JavaScript function is
modelled here as a function from `World` to `World`.

* JavaScript numbers are modelled as rationals (`ℚ`); `score` only ever takes
  integer values and is an `Int`.
* The collision test compares sums that JavaScript rounds to doubles.  The
  model rounds these sums with `roundDouble` (binary64, nearest, ties to
  even).  The arithmetic that produces positions (`x + dx`, `canvasWidth - 50`,
  the spawn products) is kept exact; it agrees with the source whenever those
  results are representable, as they are in every trace used below.
* `Math.random()` is a parameter of `spawnHeart`: one draw per axis.
* DOM work (styles, sounds, timers, element handles) carries no game data and is
  left out, except for two call counters that record how often `winGame`
  and `checkCollisions` ran.
-/

namespace Game

/-- The object `GAME_CONFIG` (lines 5-12). -/
structure Config where
  playerSpeed : ℚ
  heartSpawnInterval : ℚ
  maxHearts : Nat
  heartsToCollect : Int
  canvasWidth : ℚ
  canvasHeight : ℚ
deriving DecidableEq

/-- A heart record `{ element, x, y }` (lines 172-176) without its DOM element. -/
structure Heart where
  x : ℚ
  y : ℚ
deriving DecidableEq

/-- The object `playerPosition`. -/
structure Position where
  x : ℚ
  y : ℚ
deriving DecidableEq

/-- The object `gameState` (lines 14-19). -/
structure GameState where
  score : Int
  hearts : List Heart
  isGameActive : Bool
  playerPosition : Position
deriving DecidableEq

/-- Both globals together with the two call counters. -/
structure World where
  config : Config
  gameState : GameState
  winGameCalls : Nat
  checkCollisionsCalls : Nat
deriving DecidableEq

/-- The literal `GAME_CONFIG` of lines 5-12. -/
def GAME_CONFIG : Config :=
  { playerSpeed := 15
    heartSpawnInterval := 2000
    maxHearts := 3
    heartsToCollect := 10
    canvasWidth := 0
    canvasHeight := 0 }

/-- The literal `gameState` of lines 14-19. -/
def gameState : GameState :=
  { score := 0
    hearts := []
    isGameActive := true
    playerPosition := { x := 0, y := 0 } }

/-- The world when the script has been loaded and no handler has run. -/
def loaded : World :=
  { config := GAME_CONFIG
    gameState := gameState
    winGameCalls := 0
    checkCollisionsCalls := 0 }

/-- Function `winGame` (lines 260-285): clears the active flag; the rest is DOM work. -/
def winGame (w : World) : World :=
  { w with
    gameState := { w.gameState with isGameActive := false }
    winGameCalls := w.winGameCalls + 1 }

/-- Function `collectHeart` (lines 219-246): `score++`, then the win test. -/
def collectHeart (w : World) : World :=
  let w1 : World := { w with gameState := { w.gameState with score := w.gameState.score + 1 } }
  if w1.gameState.score ≥ w1.config.heartsToCollect then winGame w1 else w1

/-- Nearest integer to `t`, the even one of the two when `t` lies half way. -/
def roundHalfEven (t : ℚ) : Int :=
  if t - ⌊t⌋ < 1/2 then ⌊t⌋
  else if 1/2 < t - ⌊t⌋ then ⌊t⌋ + 1
  else if ⌊t⌋ % 2 = 0 then ⌊t⌋ else ⌊t⌋ + 1

/-- Climbs from an exponent `e` with `2 ^ e <= a` while `2 ^ (e + 1) <= a`. -/
def exponentUp : Nat → ℚ → Int → Int
  | 0, _, e => e
  | n + 1, a, e => if (2 : ℚ) ^ (e + 1) ≤ a then exponentUp n a (e + 1) else e

/-- Descends from an exponent `e` while `a < 2 ^ e`, at most `n` times. -/
def exponentDown : Nat → ℚ → Int → Int
  | 0, _, e => e
  | n + 1, a, e => if a < (2 : ℚ) ^ e then exponentDown n a (e - 1) else e

/-- Binary exponent used to round `x` to a double: the `e` with
`2 ^ e <= |x| < 2 ^ (e + 1)`, and -1022 throughout the subnormal range
(`doubleExponent_eq` below). -/
def doubleExponent (x : ℚ) : Int :=
  if 1 ≤ |x| then exponentUp ⌊|x|⌋₊ |x| 0 else exponentDown 1021 |x| (-1)

/-- The double that a JavaScript operation with exact result `x` returns:
`x` rounded to a multiple of `2 ^ (doubleExponent x - 52)`, to nearest, ties
to even.  Overflow to `Infinity` is not modelled; a finite double plus 50 or
plus 40 never overflows. -/
def roundDouble (x : ℚ) : ℚ :=
  if x = 0 then 0
  else
    roundHalfEven (x / (2 : ℚ) ^ (doubleExponent x - 52)) *
      (2 : ℚ) ^ (doubleExponent x - 52)

/-- The test `isColliding` of lines 203-208 for a player rectangle at `p`
(50 by 50) and a heart rectangle at `h` (40 by 40).  The sums
`playerRect.x + playerRect.width`, `heartRect.x + heartRect.width` and their
y counterparts are double additions. -/
def isColliding (p : Position) (h : Heart) : Bool :=
  !(decide (roundDouble (p.x + 50) < h.x) || decide (p.x > roundDouble (h.x + 40)) ||
    decide (roundDouble (p.y + 50) < h.y) || decide (p.y > roundDouble (h.y + 40)))

/-- The callback run of `hearts.filter` (lines 194-216): visits the hearts in
order, calls `collectHeart` for a colliding heart and drops it, keeps the
others.  Returns the world after all callbacks and the kept hearts. -/
def filterHearts (p : Position) : List Heart → World → World × List Heart
  | [], w => (w, [])
  | h :: hs, w =>
    if isColliding p h then
      filterHearts p hs (collectHeart w)
    else
      let r := filterHearts p hs w
      (r.1, h :: r.2)

/-- Function `checkCollisions` (lines 185-217): the filter result is assigned
to `gameState.hearts` when all callbacks have run. -/
def checkCollisions (w : World) : World :=
  let r := filterHearts w.gameState.playerPosition w.gameState.hearts w
  { r.1 with
    gameState := { r.1.gameState with hearts := r.2 }
    checkCollisionsCalls := r.1.checkCollisionsCalls + 1 }

/-- The clamp `Math.max(0, Math.min(bound - 50, v))` of lines 129-136 and 364-371. -/
def clampAxis (bound v : ℚ) : ℚ :=
  max 0 (min (bound - 50) v)

/-- Function `movePlayer` (lines 123-143). -/
def movePlayer (dx dy : ℚ) (w : World) : World :=
  let x1 := w.gameState.playerPosition.x + dx
  let y1 := w.gameState.playerPosition.y + dy
  let x2 := clampAxis w.config.canvasWidth x1
  let y2 := clampAxis w.config.canvasHeight y1
  checkCollisions { w with gameState := { w.gameState with playerPosition := { x := x2, y := y2 } } }

/-- Function `spawnHeart` (lines 154-179); `rx` and `ry` are the two
`Math.random()` results. -/
def spawnHeart (rx ry : ℚ) (w : World) : World :=
  if !w.gameState.isGameActive then w
  else if w.gameState.hearts.length ≥ w.config.maxHearts then w
  else
    let randomX := rx * (w.config.canvasWidth - 40)
    let randomY := ry * (w.config.canvasHeight - 40)
    let heart : Heart := { x := randomX, y := randomY }
    { w with gameState := { w.gameState with hearts := w.gameState.hearts ++ [heart] } }

/-- The part of `initializeGame` before its `spawnHeart()` call (lines 43-57):
canvas size from the bounding rectangle, player in the centre. -/
def initializeGameSetup (width height : ℚ) (w : World) : World :=
  let cfg : Config := { w.config with canvasWidth := width, canvasHeight := height }
  { w with
    config := cfg
    gameState := { w.gameState with
      playerPosition := { x := cfg.canvasWidth / 2 - 25, y := cfg.canvasHeight / 2 - 25 } } }

/-- Function `initializeGame` (lines 36-65) for a canvas rectangle
`width` by `height`; `rx`, `ry` feed the first `spawnHeart()`. -/
def initializeGame (width height rx ry : ℚ) (w : World) : World :=
  spawnHeart rx ry (initializeGameSetup width height w)

/-- The `keydown` listener of `setupKeyboardControls` (lines 72-93). -/
def keydownHandler (key : String) (w : World) : World :=
  if !w.gameState.isGameActive then w
  else if key = "ArrowUp" then movePlayer 0 (-w.config.playerSpeed) w
  else if key = "ArrowDown" then movePlayer 0 w.config.playerSpeed w
  else if key = "ArrowLeft" then movePlayer (-w.config.playerSpeed) 0 w
  else if key = "ArrowRight" then movePlayer w.config.playerSpeed 0 w
  else w

/-- The `click` listener of `setupMobileControls` (lines 100-119) for a button
whose `data-direction` attribute is `direction`. -/
def clickHandler (direction : String) (w : World) : World :=
  if !w.gameState.isGameActive then w
  else if direction = "up" then movePlayer 0 (-w.config.playerSpeed) w
  else if direction = "down" then movePlayer 0 w.config.playerSpeed w
  else if direction = "left" then movePlayer (-w.config.playerSpeed) 0 w
  else if direction = "right" then movePlayer w.config.playerSpeed 0 w
  else w

/-- The `resize` listener (lines 357-374) for a new canvas rectangle. -/
def resizeHandler (width height : ℚ) (w : World) : World :=
  let cfg : Config := { w.config with canvasWidth := width, canvasHeight := height }
  { w with
    config := cfg
    gameState := { w.gameState with
      playerPosition :=
        { x := clampAxis cfg.canvasWidth w.gameState.playerPosition.x
          y := clampAxis cfg.canvasHeight w.gameState.playerPosition.y } } }

/-- One step of a session: a `movePlayer` call, a `spawnHeart` call with its
two random draws, or a resize. -/
inductive Event where
  | move (dx dy : ℚ)
  | spawn (rx ry : ℚ)
  | resize (width height : ℚ)
deriving DecidableEq

/-- A `spawn` event is well formed when both draws lie in `[0, 1)`, as
`Math.random()` promises. -/
def Event.wellFormed : Event → Prop
  | .move _ _ => True
  | .spawn rx ry => 0 ≤ rx ∧ rx < 1 ∧ 0 ≤ ry ∧ ry < 1
  | .resize _ _ => True

/-- Runs one event. -/
def step (e : Event) (w : World) : World :=
  match e with
  | .move dx dy => movePlayer dx dy w
  | .spawn rx ry => spawnHeart rx ry w
  | .resize width height => resizeHandler width height w

/-- Runs a list of events, first event first. -/
def run (es : List Event) (w : World) : World :=
  es.foldl (fun acc e => step e acc) w

/-- The initial state: the loaded script after the setup part of
`initializeGame`, with no heart spawned yet. -/
def initialWorld (width height : ℚ) : World :=
  initializeGameSetup width height loaded

/-- States reachable from the initial state by well-formed events. -/
def Reachable (w : World) : Prop :=
  ∃ (width height : ℚ) (es : List Event),
    (∀ e ∈ es, e.wellFormed) ∧ w = run es (initialWorld width height)

instance Event.decidableWellFormed : DecidablePred Event.wellFormed := by
  intro e
  cases e <;> unfold Event.wellFormed <;> infer_instance

/-- Number of hearts of `hs` that collide with a player at `p`. -/
def overlapCount (p : Position) (hs : List Heart) : Nat :=
  (hs.filter (isColliding p)).length

/-- The clamped position that `movePlayer dx dy` writes before it checks
collisions (lines 125-136). -/
def nextPosition (dx dy : ℚ) (w : World) : Position :=
  { x := clampAxis w.config.canvasWidth (w.gameState.playerPosition.x + dx)
    y := clampAxis w.config.canvasHeight (w.gameState.playerPosition.y + dy) }

/-- A list of `movePlayer` calls, first call first. -/
def movePlayerAll (moves : List (ℚ × ℚ)) (w : World) : World :=
  moves.foldl (fun acc d => movePlayer d.1 d.2 acc) w

/-- The state in which `movePlayer dx dy` runs its collision pass: `w` with
the player at the new clamped position. -/
def atNextPosition (dx dy : ℚ) (w : World) : World :=
  { w with gameState := { w.gameState with playerPosition := nextPosition dx dy w } }

/-- The claim's geometric condition: the closed 50 by 50 player rectangle at
`p` and the closed 40 by 40 heart rectangle at `h` intersect. -/
def rectanglesMeet (p : Position) (h : Heart) : Prop :=
  p.x + 50 ≥ h.x ∧ p.x ≤ h.x + 40 ∧ p.y + 50 ≥ h.y ∧ p.y ≤ h.y + 40

/-- The same four inequalities with each sum rounded to a double. -/
def rectanglesMeetRounded (p : Position) (h : Heart) : Prop :=
  roundDouble (p.x + 50) ≥ h.x ∧ p.x ≤ roundDouble (h.x + 40) ∧
    roundDouble (p.y + 50) ≥ h.y ∧ p.y ≤ roundDouble (h.y + 40)

instance rectanglesMeet.decidable (p : Position) (h : Heart) :
    Decidable (rectanglesMeet p h) := by
  unfold rectanglesMeet
  infer_instance

instance rectanglesMeetRounded.decidable (p : Position) (h : Heart) :
    Decidable (rectanglesMeetRounded p h) := by
  unfold rectanglesMeetRounded
  infer_instance

/-- A number is a double when rounding leaves it alone. -/
def isDouble (x : ℚ) : Prop :=
  roundDouble x = x

instance isDouble.decidable (x : ℚ) : Decidable (isDouble x) := by
  unfold isDouble
  infer_instance

/-- The facts that hold in every reachable state. -/
def Invariant (w : World) : Prop :=
  w.gameState.hearts.length ≤ w.config.maxHearts ∧
    (w.gameState.isGameActive = true → w.gameState.score < w.config.heartsToCollect)

/-- One round of play on a 140 by 140 canvas: a heart spawns at (50, 50) and
a key press to the right or to the left collects it. -/
def roundRight : List Event := [.spawn (1/2) (1/2), .move 15 0]

/-- The same round with a key press to the left. -/
def roundLeft : List Event := [.spawn (1/2) (1/2), .move (-15) 0]

/-- Nine rounds, which bring the score to 9 with the player at (60, 45). -/
def nineRounds : List Event :=
  roundRight ++ roundLeft ++ roundRight ++ roundLeft ++ roundRight ++ roundLeft ++
    roundRight ++ roundLeft ++ roundRight

/-- Score 9, player at (60, 45), two live hearts both at (50, 50). -/
def nearWin : World :=
  run (nineRounds ++ [.spawn (1/2) (1/2), .spawn (1/2) (1/2)]) (initialWorld 140 140)

/-- Score 9, player at (60, 45), one live heart at (50, 50). -/
def lastHeart : World :=
  run (nineRounds ++ [.spawn (1/2) (1/2)]) (initialWorld 140 140)

/-- A won game: score 10, inactive, player at (45, 45), one heart left at (0, 50). -/
def wonWorld : World :=
  run (nineRounds ++ [.spawn (1/2) (1/2), .spawn 0 (1/2), .move (-15) 0]) (initialWorld 140 140)

/-- Player at (0, 0) on an 800 by 600 canvas with hearts at (50, 0) and (51, 0). -/
def edgeWorld : World :=
  { config := { GAME_CONFIG with canvasWidth := 800, canvasHeight := 600 }
    gameState :=
      { score := 0
        hearts := [{ x := 50, y := 0 }, { x := 51, y := 0 }]
        isGameActive := true
        playerPosition := { x := 0, y := 0 } }
    winGameCalls := 0
    checkCollisionsCalls := 0 }

/-- A 102 by 140 canvas on which `initializeGame` draws
145277407334532 / 2^53 and 1/2: the first heart sits at (1 - 2^-50, 50) and
the player at (26, 45).  Every number on the way is a double. -/
def grazeStart : World :=
  initializeGame 102 140 (145277407334532 / 2 ^ 53) (1/2) loaded

/-- A 106 by 140 canvas with two hearts, at (3 - 3 * 2^-50, 50) and at
(33, 50), and the player at (28, 45).  Every number on the way is a double. -/
def grazePair : World :=
  run [.spawn (409418147942772 / 2 ^ 53) (1/2), .spawn (1/2) (1/2)] (initialWorld 106 140)

/-- Hearts at (50, 50), (0, 0) and (50, 50) on a 140 by 140 canvas, player at
(45, 45). -/
def threeHearts : World :=
  run [.spawn (1/2) (1/2), .spawn 0 0, .spawn (1/2) (1/2)] (initialWorld 140 140)

/-- Player at the right edge x = 10 of a canvas that is 60 wide. -/
def narrowWorld : World :=
  movePlayer 15 0 (initialWorld 60 60)

/-- Player at the right edge x = 90 of a canvas that is 140 wide, score 1,
and a live heart at (25, 50) that the player would touch at x = 60. -/
def rightEdgeWorld : World :=
  run [.spawn (1/2) (1/2), .move 15 0, .move 15 0, .move 15 0, .spawn (1/4) (1/2)]
    (initialWorld 140 140)

/-! ## Rounding to doubles -/

theorem log_two_eq {a : ℚ} {e : Int} (ha : 0 < a) (h1 : (2 : ℚ) ^ e ≤ a)
    (h2 : a < (2 : ℚ) ^ (e + 1)) : Int.log 2 a = e := by
  have hle : e ≤ Int.log 2 a := (Int.zpow_le_iff_le_log (by norm_num) ha).mp h1
  have hlt : Int.log 2 a < e + 1 := (Int.lt_zpow_iff_log_lt (by norm_num) ha).mp h2
  omega

theorem exponentUp_eq (n : Nat) (a : ℚ) (e : Int) (ha : 0 < a) (h1 : (2 : ℚ) ^ e ≤ a)
    (h2 : a < (2 : ℚ) ^ (e + n + 1)) : exponentUp n a e = Int.log 2 a := by
  induction n generalizing e with
  | zero =>
    simp only [exponentUp]
    exact (log_two_eq ha h1 (by simpa using h2)).symm
  | succ n ih =>
    simp only [exponentUp]
    split_ifs with hc
    · apply ih (e + 1) hc
      have : e + 1 + (n : Int) + 1 = e + ((n + 1 : Nat) : Int) + 1 := by push_cast; ring
      rw [this]
      exact h2
    · exact (log_two_eq ha h1 (not_le.mp hc)).symm

theorem exponentDown_eq (n : Nat) (a : ℚ) (e : Int) (ha : 0 < a)
    (h2 : a < (2 : ℚ) ^ (e + 1)) : exponentDown n a e = max (Int.log 2 a) (e - n) := by
  have hlog : ∀ e : Int, a < (2 : ℚ) ^ (e + 1) → Int.log 2 a ≤ e := by
    intro e h
    exact Int.lt_add_one_iff.mp ((Int.lt_zpow_iff_log_lt (by norm_num) ha).mp h)
  induction n generalizing e with
  | zero =>
    simp only [exponentDown, Nat.cast_zero, sub_zero]
    exact (max_eq_right (hlog e h2)).symm
  | succ n ih =>
    simp only [exponentDown]
    split_ifs with hc
    · rw [ih (e - 1) (by simpa using hc)]
      push_cast
      congr 1
      ring
    · rw [log_two_eq ha (not_lt.mp hc) h2]
      refine (max_eq_left ?_).symm
      push_cast
      omega

/-- The exponent search finds the binade of `x`, held at -1022 from below. -/
theorem doubleExponent_eq {x : ℚ} (hx : x ≠ 0) :
    doubleExponent x = max (Int.log 2 |x|) (-1022) := by
  have ha : 0 < |x| := abs_pos.mpr hx
  unfold doubleExponent
  split_ifs with h1
  · have hfl : |x| < (⌊|x|⌋₊ : ℚ) + 1 := Nat.lt_floor_add_one _
    have hpow : ((⌊|x|⌋₊ : ℚ) + 1) ≤ (2 : ℚ) ^ ((0 : Int) + (⌊|x|⌋₊ : Int) + 1) := by
      have h2 : ⌊|x|⌋₊ + 1 ≤ 2 ^ (⌊|x|⌋₊ + 1) := by
        have := Nat.lt_two_pow (⌊|x|⌋₊ + 1)
        omega
      have h3 : (0 : Int) + (⌊|x|⌋₊ : Int) + 1 = ((⌊|x|⌋₊ + 1 : Nat) : Int) := by push_cast; ring
      rw [h3, zpow_natCast]
      exact_mod_cast h2
    rw [exponentUp_eq _ _ 0 ha (by simpa using h1) (lt_of_lt_of_le hfl hpow)]
    have h0 : 0 ≤ Int.log 2 |x| := (Int.zpow_le_iff_le_log (by norm_num) ha).mp (by simpa using h1)
    exact (max_eq_left (by omega)).symm
  · rw [exponentDown_eq 1021 _ (-1) ha (by simpa using not_le.mp h1)]
    norm_num

theorem roundHalfEven_ge_floor (t : ℚ) : ⌊t⌋ ≤ roundHalfEven t := by
  unfold roundHalfEven
  split_ifs <;> omega

theorem roundHalfEven_le_floor_succ (t : ℚ) : roundHalfEven t ≤ ⌊t⌋ + 1 := by
  unfold roundHalfEven
  split_ifs <;> omega

theorem roundHalfEven_intCast (n : Int) : roundHalfEven (n : ℚ) = n := by
  unfold roundHalfEven
  simp

theorem roundHalfEven_mono {t s : ℚ} (h : t ≤ s) : roundHalfEven t ≤ roundHalfEven s := by
  have hfl : ⌊t⌋ ≤ ⌊s⌋ := Int.floor_mono h
  rcases lt_or_eq_of_le hfl with hlt | heq
  · calc roundHalfEven t ≤ ⌊t⌋ + 1 := roundHalfEven_le_floor_succ t
      _ ≤ ⌊s⌋ := hlt
      _ ≤ roundHalfEven s := roundHalfEven_ge_floor s
  · have hf : t - ⌊t⌋ ≤ s - ⌊s⌋ := by
      rw [heq]
      linarith
    unfold roundHalfEven
    rw [heq] at hf ⊢
    split_ifs <;> first | omega | (exfalso; linarith)

theorem doubleExponent_mono {x y : ℚ} (hx : 0 < x) (h : x ≤ y) :
    doubleExponent x ≤ doubleExponent y := by
  have hy : 0 < y := lt_of_lt_of_le hx h
  rw [doubleExponent_eq hx.ne', doubleExponent_eq hy.ne', abs_of_pos hx, abs_of_pos hy]
  exact max_le_max (Int.log_mono_right hx h) le_rfl

theorem quantum_pos (e : Int) : (0 : ℚ) < (2 : ℚ) ^ e := zpow_pos (by norm_num) e

theorem roundDouble_le_of_pos {x : ℚ} (hx : 0 < x) :
    roundDouble x ≤ (2 : ℚ) ^ (doubleExponent x + 1) := by
  have hq := quantum_pos (doubleExponent x - 52)
  have hlt : x < (2 : ℚ) ^ (Int.log 2 x + 1) := Int.lt_zpow_succ_log_self (by norm_num) x
  have hle : (2 : ℚ) ^ (Int.log 2 x + 1) ≤ (2 : ℚ) ^ (doubleExponent x + 1) := by
    apply zpow_le_zpow_right₀ (by norm_num)
    rw [doubleExponent_eq hx.ne', abs_of_pos hx]
    have := le_max_left (Int.log 2 x) (-1022)
    omega
  have hsplit : (2 : ℚ) ^ (doubleExponent x + 1) = ((2 ^ 53 : Int) : ℚ) * (2 : ℚ) ^ (doubleExponent x - 52) := by
    have : doubleExponent x + 1 = 53 + (doubleExponent x - 52) := by ring
    rw [this, zpow_add₀ (by norm_num)]
    norm_num
  unfold roundDouble
  rw [if_neg hx.ne', hsplit]
  apply mul_le_mul_of_nonneg_right _ hq.le
  have hdiv : x / (2 : ℚ) ^ (doubleExponent x - 52) ≤ ((2 ^ 53 : Int) : ℚ) := by
    rw [div_le_iff₀ hq, ← hsplit]
    exact (hlt.trans_le hle).le
  have := roundHalfEven_mono hdiv
  rw [roundHalfEven_intCast] at this
  exact_mod_cast this

theorem zpow_split (e : Int) (k : Nat) (m : Int) (h : e = (k : Int) + m) :
    (2 : ℚ) ^ e = ((2 ^ k : Int) : ℚ) * (2 : ℚ) ^ m := by
  rw [h, zpow_add₀ (by norm_num)]
  norm_num

theorem le_roundDouble_of_pos {x : ℚ} (hx : 0 < x) (he : doubleExponent x = Int.log 2 x) :
    (2 : ℚ) ^ doubleExponent x ≤ roundDouble x := by
  have hq := quantum_pos (doubleExponent x - 52)
  have hge : (2 : ℚ) ^ doubleExponent x ≤ x := by
    rw [he]
    exact Int.zpow_log_le_self (by norm_num) hx
  have hsplit := zpow_split (doubleExponent x) 52 (doubleExponent x - 52) (by ring)
  unfold roundDouble
  rw [if_neg hx.ne']
  nth_rewrite 1 [hsplit]
  apply mul_le_mul_of_nonneg_right _ hq.le
  have hdiv : ((2 ^ 52 : Int) : ℚ) ≤ x / (2 : ℚ) ^ (doubleExponent x - 52) := by
    rw [le_div_iff₀ hq, ← hsplit]
    exact hge
  have := roundHalfEven_mono hdiv
  rw [roundHalfEven_intCast] at this
  exact_mod_cast this

theorem roundDouble_mono_pos {x y : ℚ} (hx : 0 < x) (h : x ≤ y) :
    roundDouble x ≤ roundDouble y := by
  have hy : 0 < y := lt_of_lt_of_le hx h
  rcases lt_or_eq_of_le (doubleExponent_mono hx h) with hlt | heq
  · have hey : doubleExponent y = Int.log 2 y := by
      have h1 : -1022 ≤ doubleExponent x := by
        rw [doubleExponent_eq hx.ne']
        exact le_max_right _ _
      rw [doubleExponent_eq hy.ne', abs_of_pos hy] at hlt ⊢
      rcases max_cases (Int.log 2 y) (-1022) with ⟨h2, _⟩ | ⟨h2, _⟩
      · exact h2
      · rw [h2] at hlt
        omega
    calc roundDouble x ≤ (2 : ℚ) ^ (doubleExponent x + 1) := roundDouble_le_of_pos hx
      _ ≤ (2 : ℚ) ^ doubleExponent y := zpow_le_zpow_right₀ (by norm_num) (by omega)
      _ ≤ roundDouble y := le_roundDouble_of_pos hy hey
  · unfold roundDouble
    rw [if_neg hx.ne', if_neg hy.ne', heq]
    have hq := quantum_pos (doubleExponent y - 52)
    apply mul_le_mul_of_nonneg_right _ hq.le
    exact_mod_cast roundHalfEven_mono (div_le_div_of_nonneg_right h hq.le)

theorem roundHalfEven_neg (t : ℚ) : roundHalfEven (-t) = -roundHalfEven t := by
  unfold roundHalfEven
  by_cases hint : (⌊t⌋ : ℚ) = t
  · have h1 : ⌊-t⌋ = -⌊t⌋ := by
      have hc : -t = ((-⌊t⌋ : Int) : ℚ) := by
        push_cast
        linarith
      rw [hc, Int.floor_intCast]
    rw [h1]
    have : -t - ((-⌊t⌋ : Int) : ℚ) = 0 := by push_cast; linarith
    have h2 : t - (⌊t⌋ : ℚ) = 0 := by linarith
    rw [this, h2]
    norm_num
  · have hlt : (⌊t⌋ : ℚ) < t := lt_of_le_of_ne (Int.floor_le t) hint
    have hlt2 : t < ⌊t⌋ + 1 := Int.lt_floor_add_one t
    have h1 : ⌊-t⌋ = -⌊t⌋ - 1 := by
      rw [Int.floor_eq_iff]
      push_cast
      constructor <;> linarith
    rw [h1]
    push_cast
    split_ifs <;> first | omega | (exfalso; linarith)

theorem doubleExponent_neg (x : ℚ) : doubleExponent (-x) = doubleExponent x := by
  unfold doubleExponent
  rw [abs_neg]

theorem roundDouble_neg (x : ℚ) : roundDouble (-x) = -roundDouble x := by
  unfold roundDouble
  by_cases hx : x = 0
  · simp [hx]
  · rw [if_neg hx, if_neg (neg_ne_zero.mpr hx), doubleExponent_neg, neg_div, roundHalfEven_neg]
    push_cast
    ring

theorem roundDouble_nonneg {x : ℚ} (hx : 0 ≤ x) : 0 ≤ roundDouble x := by
  unfold roundDouble
  split_ifs
  · exact le_rfl
  · have hq := quantum_pos (doubleExponent x - 52)
    apply mul_nonneg _ hq.le
    have := roundHalfEven_mono (div_nonneg hx hq.le)
    rw [show (0 : ℚ) = ((0 : Int) : ℚ) by norm_num, roundHalfEven_intCast] at this
    exact_mod_cast this

/-- Rounding to a double is monotone. -/
theorem roundDouble_mono {x y : ℚ} (h : x ≤ y) : roundDouble x ≤ roundDouble y := by
  rcases lt_trichotomy 0 x with hx | hx | hx
  · exact roundDouble_mono_pos hx h
  · rw [← hx] at h ⊢
    have : roundDouble 0 = 0 := by simp [roundDouble]
    rw [this]
    exact roundDouble_nonneg h
  · rcases le_or_lt 0 y with hy | hy
    · have h1 : roundDouble x ≤ 0 := by
        have := roundDouble_nonneg (neg_nonneg.mpr hx.le)
        rw [roundDouble_neg] at this
        linarith
      exact h1.trans (roundDouble_nonneg hy)
    · have := roundDouble_mono_pos (neg_pos.mpr hy) (neg_le_neg h)
      rw [roundDouble_neg, roundDouble_neg] at this
      linarith
theorem roundHalfEven_sub_le (t : ℚ) : |(roundHalfEven t : ℚ) - t| ≤ 1 / 2 := by
  have h1 := Int.floor_le t
  have h2 := Int.lt_floor_add_one t
  unfold roundHalfEven
  rw [abs_le]
  split_ifs <;> push_cast <;> constructor <;> linarith

/-- The rounded value lies within half a unit in the last place of `x`. -/
theorem roundDouble_sub_le (x : ℚ) :
    |roundDouble x - x| ≤ (2 : ℚ) ^ (doubleExponent x - 52) / 2 := by
  have hq := quantum_pos (doubleExponent x - 52)
  unfold roundDouble
  split_ifs with hx
  · rw [zero_sub, abs_neg, abs_le]
    constructor <;> linarith [abs_nonneg x, neg_abs_le x, le_abs_self x, hx ▸ abs_zero (α := ℚ)]
  · have hr := roundHalfEven_sub_le (x / (2 : ℚ) ^ (doubleExponent x - 52))
    have hmul : (roundHalfEven (x / (2 : ℚ) ^ (doubleExponent x - 52)) : ℚ) *
          (2 : ℚ) ^ (doubleExponent x - 52) - x =
        ((roundHalfEven (x / (2 : ℚ) ^ (doubleExponent x - 52)) : ℚ) -
          x / (2 : ℚ) ^ (doubleExponent x - 52)) * (2 : ℚ) ^ (doubleExponent x - 52) := by
      field_simp
    rw [hmul, abs_mul, abs_of_pos hq]
    calc _ ≤ 1 / 2 * (2 : ℚ) ^ (doubleExponent x - 52) :=
          mul_le_mul_of_nonneg_right hr hq.le
      _ = (2 : ℚ) ^ (doubleExponent x - 52) / 2 := by ring

/-- Sample values: 110 and 90 are doubles, 1/10 rounds to the double 0.1, and
the two sums that decide the refutations of C1 and C7 round up to 41 and 43. -/
theorem roundDouble_samples :
    roundDouble 110 = 110 ∧ roundDouble 90 = 90 ∧
      roundDouble (1 / 10) = 3602879701896397 / 36028797018963968 ∧
      roundDouble (41 - 1 / 2 ^ 50) = 41 ∧ roundDouble (43 - 3 / 2 ^ 50) = 43 ∧
      roundDouble (1 - 1 / 2 ^ 50) = 1 - 1 / 2 ^ 50 := by
  decide!

theorem isColliding_iff (p : Position) (h : Heart) :
    isColliding p h = true ↔ rectanglesMeetRounded p h := by
  simp only [isColliding, rectanglesMeetRounded, Bool.not_eq_true', Bool.or_eq_false_iff,
    decide_eq_false_iff_not, not_lt, ge_iff_le, gt_iff_lt, and_assoc]

theorem rectanglesMeetRounded_of_exact (p : Position) (h : Heart)
    (h1 : roundDouble (p.x + 50) = p.x + 50) (h2 : roundDouble (h.x + 40) = h.x + 40)
    (h3 : roundDouble (p.y + 50) = p.y + 50) (h4 : roundDouble (h.y + 40) = h.y + 40) :
    rectanglesMeetRounded p h ↔ rectanglesMeet p h := by
  unfold rectanglesMeetRounded rectanglesMeet
  rw [h1, h2, h3, h4]

theorem rectanglesMeetRounded_of_meet (p : Position) (h : Heart)
    (hpx : isDouble p.x) (hpy : isDouble p.y) (hhx : isDouble h.x) (hhy : isDouble h.y)
    (hmeet : rectanglesMeet p h) : rectanglesMeetRounded p h := by
  unfold isDouble at hpx hpy hhx hhy
  obtain ⟨m1, m2, m3, m4⟩ := hmeet
  refine ⟨?_, ?_, ?_, ?_⟩
  · have := roundDouble_mono m1
    rwa [hhx] at this
  · have := roundDouble_mono m2
    rwa [hpx] at this
  · have := roundDouble_mono m3
    rwa [hhy] at this
  · have := roundDouble_mono m4
    rwa [hpy] at this

/-! ## What `collectHeart` and `winGame` leave alone -/

theorem collectHeart_config (w : World) : (collectHeart w).config = w.config := by
  unfold collectHeart winGame
  dsimp only
  split <;> rfl

theorem collectHeart_hearts (w : World) :
    (collectHeart w).gameState.hearts = w.gameState.hearts := by
  unfold collectHeart winGame
  dsimp only
  split <;> rfl

theorem collectHeart_position (w : World) :
    (collectHeart w).gameState.playerPosition = w.gameState.playerPosition := by
  unfold collectHeart winGame
  dsimp only
  split <;> rfl

theorem collectHeart_checkCalls (w : World) :
    (collectHeart w).checkCollisionsCalls = w.checkCollisionsCalls := by
  unfold collectHeart winGame
  dsimp only
  split <;> rfl

theorem collectHeart_score (w : World) :
    (collectHeart w).gameState.score = w.gameState.score + 1 := by
  unfold collectHeart winGame
  dsimp only
  split <;> rfl

theorem collectHeart_active (w : World) :
    (collectHeart w).gameState.isGameActive =
      (w.gameState.isGameActive &&
        decide (w.gameState.score + 1 < w.config.heartsToCollect)) := by
  unfold collectHeart winGame
  dsimp only
  split
  · next h => simp [not_lt.mpr h]
  · next h => simp [not_le.mp h]

theorem collectHeart_winCalls (w : World) :
    (collectHeart w).winGameCalls =
      w.winGameCalls +
        (if w.gameState.score + 1 ≥ w.config.heartsToCollect then 1 else 0) := by
  unfold collectHeart winGame
  dsimp only
  split <;> rfl

/-! ## `n` calls of `collectHeart` in a row -/

theorem collectIter_config (n : Nat) (w : World) :
    (collectHeart^[n] w).config = w.config := by
  induction n generalizing w with
  | zero => rfl
  | succ n ih => rw [Function.iterate_succ_apply, ih, collectHeart_config]

theorem collectIter_hearts (n : Nat) (w : World) :
    (collectHeart^[n] w).gameState.hearts = w.gameState.hearts := by
  induction n generalizing w with
  | zero => rfl
  | succ n ih => rw [Function.iterate_succ_apply, ih, collectHeart_hearts]

theorem collectIter_position (n : Nat) (w : World) :
    (collectHeart^[n] w).gameState.playerPosition = w.gameState.playerPosition := by
  induction n generalizing w with
  | zero => rfl
  | succ n ih => rw [Function.iterate_succ_apply, ih, collectHeart_position]

theorem collectIter_checkCalls (n : Nat) (w : World) :
    (collectHeart^[n] w).checkCollisionsCalls = w.checkCollisionsCalls := by
  induction n generalizing w with
  | zero => rfl
  | succ n ih => rw [Function.iterate_succ_apply, ih, collectHeart_checkCalls]

theorem collectIter_score (n : Nat) (w : World) :
    (collectHeart^[n] w).gameState.score = w.gameState.score + n := by
  induction n generalizing w with
  | zero => simp
  | succ n ih =>
    rw [Function.iterate_succ_apply, ih, collectHeart_score]
    push_cast
    ring

theorem collectIter_active (n : Nat) (w : World) :
    (collectHeart^[n] w).gameState.isGameActive =
      (w.gameState.isGameActive &&
        (decide (n = 0) || decide (w.gameState.score + n < w.config.heartsToCollect))) := by
  induction n generalizing w with
  | zero => simp
  | succ n ih =>
    rw [Function.iterate_succ_apply, ih, collectHeart_active, collectHeart_score,
      collectHeart_config]
    cases w.gameState.isGameActive
    · simp
    · by_cases h0 : n = 0
      · subst h0
        simp
      · by_cases h1 : w.gameState.score + 1 + (n : Int) < w.config.heartsToCollect
        · have h2 : w.gameState.score + 1 < w.config.heartsToCollect := by omega
          simp [h0, h1, h2]
          omega
        · simp [h0, h1]
          omega

theorem collectIter_winCalls (n : Nat) (w : World) :
    (collectHeart^[n] w).winGameCalls =
      w.winGameCalls +
        min n (w.gameState.score + n + 1 - w.config.heartsToCollect).toNat := by
  induction n generalizing w with
  | zero => simp
  | succ n ih =>
    rw [Function.iterate_succ_apply, ih, collectHeart_winCalls, collectHeart_score,
      collectHeart_config]
    push_cast
    split <;> omega

/-! ## The filter pass -/

theorem filterHearts_eq (p : Position) (hs : List Heart) (w : World) :
    filterHearts p hs w =
      (collectHeart^[overlapCount p hs] w, hs.filter (fun h => !isColliding p h)) := by
  induction hs generalizing w with
  | nil => rfl
  | cons h hs ih =>
    unfold filterHearts
    by_cases hc : isColliding p h = true
    · simp [hc, ih, overlapCount, Function.iterate_succ_apply]
    · simp [hc, ih, overlapCount]

/-! ## `checkCollisions` -/

theorem checkCollisions_hearts (w : World) :
    (checkCollisions w).gameState.hearts =
      w.gameState.hearts.filter (fun h => !isColliding w.gameState.playerPosition h) := by
  simp [checkCollisions, filterHearts_eq]

theorem checkCollisions_score (w : World) :
    (checkCollisions w).gameState.score =
      w.gameState.score + overlapCount w.gameState.playerPosition w.gameState.hearts := by
  simp [checkCollisions, filterHearts_eq, collectIter_score]

theorem checkCollisions_config (w : World) : (checkCollisions w).config = w.config := by
  simp [checkCollisions, filterHearts_eq, collectIter_config]

theorem checkCollisions_position (w : World) :
    (checkCollisions w).gameState.playerPosition = w.gameState.playerPosition := by
  simp [checkCollisions, filterHearts_eq, collectIter_position]

theorem checkCollisions_active (w : World) :
    (checkCollisions w).gameState.isGameActive =
      (w.gameState.isGameActive &&
        (decide (overlapCount w.gameState.playerPosition w.gameState.hearts = 0) ||
          decide (w.gameState.score +
            overlapCount w.gameState.playerPosition w.gameState.hearts <
              w.config.heartsToCollect))) := by
  simp [checkCollisions, filterHearts_eq, collectIter_active]

theorem checkCollisions_winCalls (w : World) :
    (checkCollisions w).winGameCalls =
      w.winGameCalls +
        min (overlapCount w.gameState.playerPosition w.gameState.hearts)
          (w.gameState.score + overlapCount w.gameState.playerPosition w.gameState.hearts
            + 1 - w.config.heartsToCollect).toNat := by
  simp [checkCollisions, filterHearts_eq, collectIter_winCalls]

theorem checkCollisions_checkCalls (w : World) :
    (checkCollisions w).checkCollisionsCalls = w.checkCollisionsCalls + 1 := by
  simp [checkCollisions, filterHearts_eq, collectIter_checkCalls]

theorem overlapCount_le (p : Position) (hs : List Heart) : overlapCount p hs ≤ hs.length :=
  List.length_filter_le _ _

/-! ## `movePlayer` -/

theorem movePlayer_eq (dx dy : ℚ) (w : World) :
    movePlayer dx dy w =
      checkCollisions
        { w with gameState := { w.gameState with playerPosition := nextPosition dx dy w } } :=
  rfl

theorem movePlayer_config (dx dy : ℚ) (w : World) :
    (movePlayer dx dy w).config = w.config := by
  rw [movePlayer_eq, checkCollisions_config]

theorem movePlayer_position (dx dy : ℚ) (w : World) :
    (movePlayer dx dy w).gameState.playerPosition = nextPosition dx dy w := by
  rw [movePlayer_eq, checkCollisions_position]

theorem movePlayer_hearts (dx dy : ℚ) (w : World) :
    (movePlayer dx dy w).gameState.hearts =
      w.gameState.hearts.filter (fun h => !isColliding (nextPosition dx dy w) h) := by
  rw [movePlayer_eq, checkCollisions_hearts]

theorem movePlayer_score (dx dy : ℚ) (w : World) :
    (movePlayer dx dy w).gameState.score =
      w.gameState.score + overlapCount (nextPosition dx dy w) w.gameState.hearts := by
  rw [movePlayer_eq, checkCollisions_score]

theorem movePlayer_active (dx dy : ℚ) (w : World) :
    (movePlayer dx dy w).gameState.isGameActive =
      (w.gameState.isGameActive &&
        (decide (overlapCount (nextPosition dx dy w) w.gameState.hearts = 0) ||
          decide (w.gameState.score + overlapCount (nextPosition dx dy w) w.gameState.hearts <
            w.config.heartsToCollect))) := by
  rw [movePlayer_eq, checkCollisions_active]

theorem clampAxis_nonneg (bound v : ℚ) : 0 ≤ clampAxis bound v :=
  le_max_left _ _

theorem clampAxis_le (bound v : ℚ) : clampAxis bound v ≤ max 0 (bound - 50) :=
  max_le_max le_rfl (min_le_left _ _)

theorem movePlayerAll_config (moves : List (ℚ × ℚ)) (w : World) :
    (movePlayerAll moves w).config = w.config := by
  induction moves generalizing w with
  | nil => rfl
  | cons d ds ih =>
    show (movePlayerAll ds (movePlayer d.1 d.2 w)).config = w.config
    rw [ih, movePlayer_config]

/-! ## `spawnHeart` and the resize listener -/

theorem spawnHeart_config (rx ry : ℚ) (w : World) :
    (spawnHeart rx ry w).config = w.config := by
  unfold spawnHeart
  split
  · rfl
  · split <;> rfl

theorem spawnHeart_score (rx ry : ℚ) (w : World) :
    (spawnHeart rx ry w).gameState.score = w.gameState.score := by
  unfold spawnHeart
  split
  · rfl
  · split <;> rfl

theorem spawnHeart_active (rx ry : ℚ) (w : World) :
    (spawnHeart rx ry w).gameState.isGameActive = w.gameState.isGameActive := by
  unfold spawnHeart
  split
  · rfl
  · split <;> rfl

theorem spawnHeart_inactive (rx ry : ℚ) (w : World)
    (h : w.gameState.isGameActive = false) : spawnHeart rx ry w = w := by
  simp [spawnHeart, h]

theorem spawnHeart_length_le (rx ry : ℚ) (w : World)
    (h : w.gameState.hearts.length ≤ w.config.maxHearts) :
    (spawnHeart rx ry w).gameState.hearts.length ≤ w.config.maxHearts := by
  unfold spawnHeart
  split
  · exact h
  · split
    · exact h
    · next hlt =>
      simp only [List.length_append, List.length_singleton]
      omega

/-! ## Session steps -/

theorem step_config_constants (e : Event) (w : World) :
    (step e w).config.maxHearts = w.config.maxHearts ∧
      (step e w).config.heartsToCollect = w.config.heartsToCollect := by
  cases e with
  | move dx dy => simp [step, movePlayer_config]
  | spawn rx ry => simp [step, spawnHeart_config]
  | resize width height => simp [step, resizeHandler]

theorem step_inactive (e : Event) (w : World) (h : w.gameState.isGameActive = false) :
    (step e w).gameState.isGameActive = false := by
  cases e with
  | move dx dy => simp [step, movePlayer_active, h]
  | spawn rx ry => simp [step, spawnHeart_active, h]
  | resize width height => simpa [step, resizeHandler] using h

theorem run_inactive (es : List Event) (w : World) (h : w.gameState.isGameActive = false) :
    (run es w).gameState.isGameActive = false := by
  induction es generalizing w with
  | nil => exact h
  | cons e es ih => exact ih (step e w) (step_inactive e w h)

theorem step_length_le (e : Event) (w : World)
    (h : w.gameState.hearts.length ≤ w.config.maxHearts) :
    (step e w).gameState.hearts.length ≤ (step e w).config.maxHearts := by
  rw [(step_config_constants e w).1]
  cases e with
  | move dx dy =>
    simp only [step, movePlayer_hearts]
    exact le_trans (List.length_filter_le _ _) h
  | spawn rx ry => exact spawnHeart_length_le rx ry w h
  | resize width height => simpa [step, resizeHandler] using h

theorem step_score_lt (e : Event) (w : World)
    (h : w.gameState.isGameActive = true → w.gameState.score < w.config.heartsToCollect)
    (ha : (step e w).gameState.isGameActive = true) :
    (step e w).gameState.score < (step e w).config.heartsToCollect := by
  rw [(step_config_constants e w).2]
  cases e with
  | move dx dy =>
    simp only [step, movePlayer_active, movePlayer_score] at ha ⊢
    simp only [Bool.and_eq_true, Bool.or_eq_true, decide_eq_true_eq] at ha
    rcases ha with ⟨h1, h2 | h2⟩
    · rw [h2]
      simpa using h h1
    · exact h2
  | spawn rx ry =>
    simp only [step, spawnHeart_active, spawnHeart_score] at ha ⊢
    exact h ha
  | resize width height =>
    simp only [step, resizeHandler] at ha ⊢
    exact h ha

theorem invariant_initialWorld (width height : ℚ) : Invariant (initialWorld width height) := by
  constructor
  · simp [initialWorld, initializeGameSetup, loaded, gameState]
  · intro _
    simp [initialWorld, initializeGameSetup, loaded, gameState, GAME_CONFIG]

theorem invariant_step (e : Event) (w : World) (h : Invariant w) : Invariant (step e w) :=
  ⟨step_length_le e w h.1, step_score_lt e w h.2⟩

theorem invariant_run (es : List Event) (w : World) (h : Invariant w) :
    Invariant (run es w) := by
  induction es generalizing w with
  | nil => exact h
  | cons e es ih => exact ih (step e w) (invariant_step e w h)

theorem invariant_of_reachable (w : World) (h : Reachable w) : Invariant w := by
  obtain ⟨width, height, es, _, rfl⟩ := h
  exact invariant_run es _ (invariant_initialWorld width height)

theorem reachable_run (width height : ℚ) (es : List Event) (h : ∀ e ∈ es, e.wellFormed) :
    Reachable (run es (initialWorld width height)) :=
  ⟨width, height, es, h, rfl⟩

/-! ## The claims -/

/-- C1, refuted as stated: on a 102 by 140 canvas whose first heart is drawn
at (1 - 2^-50, 50), the collision pass of the first ArrowRight runs with the
player at (41, 45).  The heart's right edge `hx + 40 = 41 - 2^-50` lies left
of the player's left edge 41, so `px <= hx + 40` is false and the rectangles
do not meet; the double sum `hx + 40` is 41 and the heart is removed. -/
theorem checkCollisions_rounding_counterexample :
    (⟨1 - 1 / 2 ^ 50, 50⟩ : Heart) ∈ (atNextPosition 15 0 grazeStart).gameState.hearts ∧
      (atNextPosition 15 0 grazeStart).gameState.playerPosition = ⟨41, 45⟩ ∧
      keydownHandler "ArrowRight" grazeStart = checkCollisions (atNextPosition 15 0 grazeStart) ∧
      (⟨1 - 1 / 2 ^ 50, 50⟩ : Heart) ∉
        (checkCollisions (atNextPosition 15 0 grazeStart)).gameState.hearts ∧
      ¬ ((atNextPosition 15 0 grazeStart).gameState.playerPosition.x ≤
        (1 - 1 / 2 ^ 50 : ℚ) + 40) := by
  decide!

/-- C1, amended: a heart of `gameState.hearts` is removed by `checkCollisions`
exactly when `fl(px + 50) >= hx`, `px <= fl(hx + 40)`, `fl(py + 50) >= hy` and
`py <= fl(hy + 40)`, where `fl` rounds the sum to the nearest double.  When
the four sums are exact this is the closed-rectangle condition
`px + 50 >= hx`, `px <= hx + 40`, `py + 50 >= hy`, `py <= hy + 40`; and for
double coordinates every heart whose closed rectangle meets the player's is
removed, touching edges included. -/
theorem checkCollisions_removes_iff (w : World) (h : Heart)
    (hm : h ∈ w.gameState.hearts) :
    (h ∉ (checkCollisions w).gameState.hearts ↔
        (roundDouble (w.gameState.playerPosition.x + 50) ≥ h.x ∧
          w.gameState.playerPosition.x ≤ roundDouble (h.x + 40) ∧
          roundDouble (w.gameState.playerPosition.y + 50) ≥ h.y ∧
          w.gameState.playerPosition.y ≤ roundDouble (h.y + 40))) ∧
      (roundDouble (w.gameState.playerPosition.x + 50) = w.gameState.playerPosition.x + 50 →
        roundDouble (h.x + 40) = h.x + 40 →
        roundDouble (w.gameState.playerPosition.y + 50) = w.gameState.playerPosition.y + 50 →
        roundDouble (h.y + 40) = h.y + 40 →
        (h ∉ (checkCollisions w).gameState.hearts ↔
          (w.gameState.playerPosition.x + 50 ≥ h.x ∧ w.gameState.playerPosition.x ≤ h.x + 40 ∧
            w.gameState.playerPosition.y + 50 ≥ h.y ∧
            w.gameState.playerPosition.y ≤ h.y + 40))) ∧
      (isDouble w.gameState.playerPosition.x → isDouble w.gameState.playerPosition.y →
        isDouble h.x → isDouble h.y →
        (w.gameState.playerPosition.x + 50 ≥ h.x ∧ w.gameState.playerPosition.x ≤ h.x + 40 ∧
          w.gameState.playerPosition.y + 50 ≥ h.y ∧
          w.gameState.playerPosition.y ≤ h.y + 40) →
        h ∉ (checkCollisions w).gameState.hearts) := by
  have hiff : h ∉ (checkCollisions w).gameState.hearts ↔
      rectanglesMeetRounded w.gameState.playerPosition h := by
    rw [checkCollisions_hearts, ← isColliding_iff]
    simp [List.mem_filter, hm]
  refine ⟨hiff, ?_, ?_⟩
  · intro h1 h2 h3 h4
    exact hiff.trans (rectanglesMeetRounded_of_exact _ h h1 h2 h3 h4)
  · intro hpx hpy hhx hhy hmeet
    exact hiff.mpr (rectanglesMeetRounded_of_meet _ h hpx hpy hhx hhy hmeet)

/-- C1 (amended) at the spec's two examples: with the player at (0, 0) the
heart at (50, 0) touches the player and is collected, the heart at (51, 0)
is not. -/
theorem checkCollisions_removes_iff_witness :
    ((⟨50, 0⟩ : Heart) ∈ edgeWorld.gameState.hearts ∧
        (⟨50, 0⟩ : Heart) ∉ (checkCollisions edgeWorld).gameState.hearts) ∧
      ((⟨51, 0⟩ : Heart) ∈ edgeWorld.gameState.hearts ∧
        ¬ (⟨51, 0⟩ : Heart) ∉ (checkCollisions edgeWorld).gameState.hearts) :=
  ⟨⟨by decide!,
      (checkCollisions_removes_iff edgeWorld ⟨50, 0⟩ (by decide!)).2.2
        (by decide!) (by decide!) (by decide!) (by decide!) (by decide!)⟩,
    ⟨by decide!,
      fun hn => absurd
        (((checkCollisions_removes_iff edgeWorld ⟨51, 0⟩ (by decide!)).2.1
          (by decide!) (by decide!) (by decide!) (by decide!)).mp hn)
        (by decide!)⟩⟩

/-- C2, refuted as stated: on a 30 by 30 canvas the first `movePlayer(15, 0)`
leaves the player at x = 0, which is above `canvasWidth - 50 = -20`. -/
theorem movePlayer_clamp_counterexample :
    (movePlayer 15 0 (initializeGame 30 30 (1/2) (1/2) loaded)).gameState.playerPosition.x = 0 ∧
      (movePlayer 15 0 (initializeGame 30 30 (1/2) (1/2) loaded)).config.canvasWidth = 30 ∧
      ¬ ((movePlayer 15 0 (initializeGame 30 30 (1/2) (1/2) loaded)).gameState.playerPosition.x ≤
        (movePlayer 15 0 (initializeGame 30 30 (1/2) (1/2) loaded)).config.canvasWidth - 50) := by
  decide!

/-- C2, amended: from the state set up by `initializeGame`, after every
`movePlayer` call of any sequence the player's x lies in
`[0, max 0 (canvasWidth - 50)]` and y in `[0, max 0 (canvasHeight - 50)]`;
these are the intervals `[0, canvasWidth - 50]` and `[0, canvasHeight - 50]`
when the canvas is at least 50 wide and high. -/
theorem movePlayer_clamp_invariant (width height rx ry : ℚ) (moves : List (ℚ × ℚ))
    (dx dy : ℚ) :
    0 ≤ (movePlayer dx dy (movePlayerAll moves
          (initializeGame width height rx ry loaded))).gameState.playerPosition.x ∧
      (movePlayer dx dy (movePlayerAll moves
          (initializeGame width height rx ry loaded))).gameState.playerPosition.x ≤
        max 0 (width - 50) ∧
      0 ≤ (movePlayer dx dy (movePlayerAll moves
          (initializeGame width height rx ry loaded))).gameState.playerPosition.y ∧
      (movePlayer dx dy (movePlayerAll moves
          (initializeGame width height rx ry loaded))).gameState.playerPosition.y ≤
        max 0 (height - 50) := by
  have hc : (movePlayerAll moves (initializeGame width height rx ry loaded)).config.canvasWidth
        = width ∧
      (movePlayerAll moves (initializeGame width height rx ry loaded)).config.canvasHeight
        = height := by
    rw [movePlayerAll_config, initializeGame, spawnHeart_config]
    exact ⟨rfl, rfl⟩
  rw [movePlayer_position]
  unfold nextPosition
  rw [hc.1, hc.2]
  exact ⟨clampAxis_nonneg _ _, clampAxis_le _ _, clampAxis_nonneg _ _, clampAxis_le _ _⟩

/-- C3: in a state with `score = heartsToCollect - 1` (active, as in the
claim, or not), a `movePlayer(dx, dy)` whose new position overlaps exactly one
live heart ends with `score = heartsToCollect` and `isGameActive = false`;
whatever events follow, every later `spawnHeart` call leaves
`gameState.hearts` unchanged. -/
theorem movePlayer_last_heart_wins (w : World) (dx dy : ℚ)
    (hscore : w.gameState.score = w.config.heartsToCollect - 1)
    (hone : overlapCount (nextPosition dx dy w) w.gameState.hearts = 1) :
    (movePlayer dx dy w).gameState.score = (movePlayer dx dy w).config.heartsToCollect ∧
      (movePlayer dx dy w).gameState.isGameActive = false ∧
      ∀ (later : List Event) (rx ry : ℚ),
        (spawnHeart rx ry (run later (movePlayer dx dy w))).gameState.hearts =
          (run later (movePlayer dx dy w)).gameState.hearts := by
  have hoff : (movePlayer dx dy w).gameState.isGameActive = false := by
    rw [movePlayer_active, hone, hscore]
    simp
  refine ⟨?_, hoff, ?_⟩
  · rw [movePlayer_score, movePlayer_config, hone, hscore]
    simp
  · intro later rx ry
    rw [spawnHeart_inactive rx ry _ (run_inactive later _ hoff)]

/-- C3 at a reachable state: score 9 of 10, one heart at (50, 50), player at
(60, 45) stepping left. -/
theorem movePlayer_last_heart_wins_witness :
    (lastHeart.gameState.isGameActive = true ∧
        lastHeart.gameState.score = lastHeart.config.heartsToCollect - 1 ∧
        overlapCount (nextPosition (-15) 0 lastHeart) lastHeart.gameState.hearts = 1) ∧
      ((movePlayer (-15) 0 lastHeart).gameState.score =
          (movePlayer (-15) 0 lastHeart).config.heartsToCollect ∧
        (movePlayer (-15) 0 lastHeart).gameState.isGameActive = false ∧
        ∀ (later : List Event) (rx ry : ℚ),
          (spawnHeart rx ry (run later (movePlayer (-15) 0 lastHeart))).gameState.hearts =
            (run later (movePlayer (-15) 0 lastHeart)).gameState.hearts) :=
  ⟨by decide!,
    movePlayer_last_heart_wins lastHeart (-15) 0 (by decide!) (by decide!)⟩

/-- C4, refuted as stated: a reachable active state with score 9 and two
hearts under the player's next position; the `movePlayer` step switches
`isGameActive` off with score 11, not `heartsToCollect = 10`. -/
theorem score_at_win_counterexample :
    Reachable nearWin ∧ nearWin.gameState.isGameActive = true ∧
      (step (.move (-15) 0) nearWin).gameState.isGameActive = false ∧
      (step (.move (-15) 0) nearWin).gameState.score = 11 ∧
      (step (.move (-15) 0) nearWin).gameState.score ≠
        (step (.move (-15) 0) nearWin).config.heartsToCollect :=
  ⟨reachable_run 140 140 _ (by decide!), by decide!, by decide!, by decide!, by decide!⟩

/-- C4, amended: in every reachable state `score <= heartsToCollect` while
`isGameActive` is true, and at a step that switches `isGameActive` from true
to false the score goes from below `heartsToCollect` to at least
`heartsToCollect` and stays below `heartsToCollect + maxHearts`. -/
theorem score_bound_reachable (w : World) (hr : Reachable w) :
    (w.gameState.isGameActive = true → w.gameState.score ≤ w.config.heartsToCollect) ∧
      ∀ e : Event, w.gameState.isGameActive = true →
        (step e w).gameState.isGameActive = false →
        w.gameState.score < w.config.heartsToCollect ∧
          w.config.heartsToCollect ≤ (step e w).gameState.score ∧
          (step e w).gameState.score < w.config.heartsToCollect + w.config.maxHearts := by
  have hinv := invariant_of_reachable w hr
  refine ⟨fun ha => le_of_lt (hinv.2 ha), ?_⟩
  intro e ha hoff
  have hlt := hinv.2 ha
  cases e with
  | move dx dy =>
    simp only [step, movePlayer_active, movePlayer_score, ha, Bool.true_and,
      Bool.or_eq_false_iff, decide_eq_false_iff_not, not_lt] at hoff ⊢
    have hk := overlapCount_le (nextPosition dx dy w) w.gameState.hearts
    have hm := hinv.1
    refine ⟨hlt, hoff.2, ?_⟩
    omega
  | spawn rx ry =>
    simp only [step, spawnHeart_active] at hoff
    rw [ha] at hoff
    exact absurd hoff (by decide)
  | resize width height =>
    simp only [step, resizeHandler] at hoff
    rw [ha] at hoff
    exact absurd hoff (by decide)

/-- C4 (amended) at the reachable state with score 9 and two hearts at hand. -/
theorem score_bound_reachable_witness :
    Reachable nearWin ∧
      ((nearWin.gameState.isGameActive = true →
          nearWin.gameState.score ≤ nearWin.config.heartsToCollect) ∧
        ∀ e : Event, nearWin.gameState.isGameActive = true →
          (step e nearWin).gameState.isGameActive = false →
          nearWin.gameState.score < nearWin.config.heartsToCollect ∧
            nearWin.config.heartsToCollect ≤ (step e nearWin).gameState.score ∧
            (step e nearWin).gameState.score <
              nearWin.config.heartsToCollect + nearWin.config.maxHearts) :=
  ⟨reachable_run 140 140 _ (by decide!),
    score_bound_reachable nearWin (reachable_run 140 140 _ (by decide!))⟩

/-- C5, refuted as stated: from the reachable state with score 9 and two
hearts under the player's next position, the collision pass of one
`movePlayer` call brings the score past `heartsToCollect` and invokes
`winGame` twice. -/
theorem winGame_once_counterexample :
    Reachable nearWin ∧
      nearWin.gameState.score < nearWin.config.heartsToCollect ∧
      nearWin.config.heartsToCollect ≤ (movePlayer (-15) 0 nearWin).gameState.score ∧
      (movePlayer (-15) 0 nearWin).winGameCalls = nearWin.winGameCalls + 2 ∧
      (movePlayer (-15) 0 nearWin).winGameCalls ≠ nearWin.winGameCalls + 1 :=
  ⟨reachable_run 140 140 _ (by decide!), by decide!, by decide!, by decide!, by decide!⟩

/-- C5, amended: one `checkCollisions` pass over `k` overlapping hearts
invokes `winGame` once for each collected heart whose increment leaves
`score >= heartsToCollect`, that is `min k (score + k + 1 - heartsToCollect)`
times with the difference cut off at 0 (the same count holds for the pass
inside `movePlayer`).  So `winGame` is not invoked while
`score + k < heartsToCollect`, it is invoked exactly once when the pass
raises `score` from below `heartsToCollect` to exactly `heartsToCollect`,
and more than once when the pass raises it beyond. -/
theorem checkCollisions_winGame_calls (w : World) (dx dy : ℚ) :
    (checkCollisions w).winGameCalls =
        w.winGameCalls +
          min (overlapCount w.gameState.playerPosition w.gameState.hearts)
            (w.gameState.score + overlapCount w.gameState.playerPosition w.gameState.hearts
              + 1 - w.config.heartsToCollect).toNat ∧
      (movePlayer dx dy w).winGameCalls =
        w.winGameCalls +
          min (overlapCount (nextPosition dx dy w) w.gameState.hearts)
            (w.gameState.score + overlapCount (nextPosition dx dy w) w.gameState.hearts
              + 1 - w.config.heartsToCollect).toNat ∧
      (w.gameState.score + overlapCount w.gameState.playerPosition w.gameState.hearts <
          w.config.heartsToCollect →
        (checkCollisions w).winGameCalls = w.winGameCalls) ∧
      (w.gameState.score < w.config.heartsToCollect →
        w.gameState.score + overlapCount w.gameState.playerPosition w.gameState.hearts =
          w.config.heartsToCollect →
        (checkCollisions w).winGameCalls = w.winGameCalls + 1) ∧
      (w.gameState.score < w.config.heartsToCollect →
        w.config.heartsToCollect <
          w.gameState.score + overlapCount w.gameState.playerPosition w.gameState.hearts →
        w.winGameCalls + 1 < (checkCollisions w).winGameCalls) := by
  refine ⟨checkCollisions_winCalls w, by rw [movePlayer_eq, checkCollisions_winCalls], ?_, ?_, ?_⟩
  · intro h
    rw [checkCollisions_winCalls]
    omega
  · intro h1 h2
    rw [checkCollisions_winCalls]
    omega
  · intro h1 h2
    rw [checkCollisions_winCalls]
    omega

/-- C5 (amended) at the reachable state with score 9 and one heart under the
player: the pass raises the score to exactly 10 and invokes `winGame` once. -/
theorem checkCollisions_winGame_calls_witness :
    (lastHeart.gameState.score < lastHeart.config.heartsToCollect ∧
        lastHeart.gameState.score +
            overlapCount lastHeart.gameState.playerPosition lastHeart.gameState.hearts =
          lastHeart.config.heartsToCollect) ∧
      (checkCollisions lastHeart).winGameCalls = lastHeart.winGameCalls + 1 :=
  ⟨by decide!,
    (checkCollisions_winGame_calls lastHeart 0 0).2.2.2.1 (by decide!) (by decide!)⟩

/-- C6, refuted as stated: in the won (inactive) state `wonWorld` a direct
`movePlayer(-15, 0)` call moves the player, runs a collision pass, removes a
heart and raises the score. -/
theorem movePlayer_inactive_counterexample :
    wonWorld.gameState.isGameActive = false ∧
      (movePlayer (-15) 0 wonWorld).gameState.playerPosition ≠
        wonWorld.gameState.playerPosition ∧
      (movePlayer (-15) 0 wonWorld).gameState.score ≠ wonWorld.gameState.score ∧
      (movePlayer (-15) 0 wonWorld).gameState.hearts ≠ wonWorld.gameState.hearts ∧
      (movePlayer (-15) 0 wonWorld).checkCollisionsCalls =
        wonWorld.checkCollisionsCalls + 1 := by
  decide!

/-- C6, amended: the inactive guard sits in the two input listeners, not in
`movePlayer`.  In a state with `isGameActive = false` the `keydown` listener
(any key) and the control-button `click` listener (any direction) return
without calling `movePlayer`: the whole state, the position, score, hearts
and the count of collision passes included, is unchanged. -/
theorem input_listeners_inactive_noop (w : World) (key direction : String)
    (hoff : w.gameState.isGameActive = false) :
    keydownHandler key w = w ∧ clickHandler direction w = w := by
  simp [keydownHandler, clickHandler, hoff]

/-- C6 (amended) at the won state, for the left arrow key and the left button. -/
theorem input_listeners_inactive_noop_witness :
    wonWorld.gameState.isGameActive = false ∧
      (keydownHandler "ArrowLeft" wonWorld = wonWorld ∧
        clickHandler "left" wonWorld = wonWorld) :=
  ⟨by decide!, input_listeners_inactive_noop wonWorld "ArrowLeft" "left" (by decide!)⟩

/-- C7, refuted as stated: on a 106 by 140 canvas with hearts at
(3 - 3 * 2^-50, 50) and (33, 50), the first ArrowRight puts the player at
(43, 45).  Only the second heart overlaps the player; the first one's right
edge lies 3 * 2^-50 left of the player, yet the pass removes both and the
score rises by 2. -/
theorem checkCollisions_keeps_counterexample :
    Reachable grazePair ∧
      grazePair.gameState.hearts = [⟨3 - 3 / 2 ^ 50, 50⟩, ⟨33, 50⟩] ∧
      nextPosition 15 0 grazePair = ⟨43, 45⟩ ∧
      ¬ rectanglesMeet (nextPosition 15 0 grazePair) ⟨3 - 3 / 2 ^ 50, 50⟩ ∧
      rectanglesMeet (nextPosition 15 0 grazePair) ⟨33, 50⟩ ∧
      (⟨3 - 3 / 2 ^ 50, 50⟩ : Heart) ∉ (movePlayer 15 0 grazePair).gameState.hearts ∧
      (movePlayer 15 0 grazePair).gameState.score = grazePair.gameState.score + 2 :=
  ⟨reachable_run 106 140 [.spawn (409418147942772 / 2 ^ 53) (1/2), .spawn (1/2) (1/2)]
      (by decide!),
    by decide!, by decide!, by decide!, by decide!, by decide!, by decide!⟩

/-- C7, amended: one `checkCollisions` pass removes exactly the hearts that
pass the collision test of lines 203-208 (the closed rectangles meet, with
the sums `px + 50`, `hx + 40`, `py + 50`, `hy + 40` rounded to doubles), keeps
all the other hearts in their original order, and adds to `score` the number
of hearts removed, however many they are.  For double coordinates the hearts
removed include every heart whose closed rectangle meets the player's. -/
theorem checkCollisions_filter_and_score (w : World) :
    (checkCollisions w).gameState.hearts =
        w.gameState.hearts.filter
          (fun h => decide (¬ rectanglesMeetRounded w.gameState.playerPosition h)) ∧
      (checkCollisions w).gameState.score =
        w.gameState.score +
          (w.gameState.hearts.filter
            (fun h => decide (rectanglesMeetRounded w.gameState.playerPosition h))).length ∧
      (checkCollisions w).gameState.score =
        w.gameState.score +
          ((w.gameState.hearts.length - (checkCollisions w).gameState.hearts.length : Nat) :
            Int) ∧
      ∀ h ∈ w.gameState.hearts,
        isDouble w.gameState.playerPosition.x → isDouble w.gameState.playerPosition.y →
        isDouble h.x → isDouble h.y → rectanglesMeet w.gameState.playerPosition h →
        h ∉ (checkCollisions w).gameState.hearts := by
  have hkeep : (fun h => !isColliding w.gameState.playerPosition h) =
      (fun h => decide (¬ rectanglesMeetRounded w.gameState.playerPosition h)) := by
    funext h
    by_cases hc : isColliding w.gameState.playerPosition h = true
    · simp [hc, (isColliding_iff _ h).mp hc]
    · have hn : ¬ rectanglesMeetRounded w.gameState.playerPosition h :=
        fun hr => hc ((isColliding_iff _ h).mpr hr)
      simp [hc, hn]
  have hdrop : isColliding w.gameState.playerPosition =
      (fun h => decide (rectanglesMeetRounded w.gameState.playerPosition h)) := by
    funext h
    by_cases hc : isColliding w.gameState.playerPosition h = true
    · simp [hc, (isColliding_iff _ h).mp hc]
    · have hn : ¬ rectanglesMeetRounded w.gameState.playerPosition h :=
        fun hr => hc ((isColliding_iff _ h).mpr hr)
      simp [hc, hn]
  refine ⟨?_, ?_, ?_, ?_⟩
  · rw [checkCollisions_hearts, hkeep]
  · rw [checkCollisions_score, overlapCount, hdrop]
  · rw [checkCollisions_score, checkCollisions_hearts, overlapCount]
    have hsplit := List.length_eq_length_filter_add
      (isColliding w.gameState.playerPosition) (l := w.gameState.hearts)
    congr 2
    omega
  · intro h hm hpx hpy hhx hhy hmeet
    rw [checkCollisions_hearts]
    have hc := (isColliding_iff _ h).mpr
      (rectanglesMeetRounded_of_meet _ h hpx hpy hhx hhy hmeet)
    simp [List.mem_filter, hc]

/-- C7 (amended) with hearts (50, 50), (0, 0), (50, 50) and the player moved
to (60, 45): both hearts at (50, 50) are removed in one pass, the heart at
(0, 0) is kept, the score rises from 0 to 2. -/
theorem checkCollisions_filter_and_score_witness :
    (atNextPosition 15 0 threeHearts).gameState.hearts = [⟨50, 50⟩, ⟨0, 0⟩, ⟨50, 50⟩] ∧
      (atNextPosition 15 0 threeHearts).gameState.playerPosition = ⟨60, 45⟩ ∧
      (checkCollisions (atNextPosition 15 0 threeHearts)).gameState.hearts = [⟨0, 0⟩] ∧
      (checkCollisions (atNextPosition 15 0 threeHearts)).gameState.score = 0 + 2 ∧
      (⟨50, 50⟩ : Heart) ∉ (checkCollisions (atNextPosition 15 0 threeHearts)).gameState.hearts :=
  ⟨by decide!, by decide!,
    (checkCollisions_filter_and_score (atNextPosition 15 0 threeHearts)).1.trans (by decide!),
    (checkCollisions_filter_and_score (atNextPosition 15 0 threeHearts)).2.1.trans (by decide!),
    (checkCollisions_filter_and_score (atNextPosition 15 0 threeHearts)).2.2.2 ⟨50, 50⟩
      (by decide!) (by decide!) (by decide!) (by decide!) (by decide!) (by decide!)⟩

/-- C8: in every reachable state `gameState.hearts.length <= maxHearts`. -/
theorem hearts_length_le_maxHearts (w : World) (hr : Reachable w) :
    w.gameState.hearts.length ≤ w.config.maxHearts :=
  (invariant_of_reachable w hr).1

/-- C8 at a reachable state with a full screen: three spawns fill the three
slots and a fourth spawn adds nothing. -/
theorem hearts_length_le_maxHearts_witness :
    Reachable (run [.spawn 0 0, .spawn (1/2) 0, .spawn 0 (1/2), .spawn (1/4) (1/4)]
        (initialWorld 140 140)) ∧
      (run [.spawn 0 0, .spawn (1/2) 0, .spawn 0 (1/2), .spawn (1/4) (1/4)]
        (initialWorld 140 140)).gameState.hearts.length ≤
      (run [.spawn 0 0, .spawn (1/2) 0, .spawn 0 (1/2), .spawn (1/4) (1/4)]
        (initialWorld 140 140)).config.maxHearts :=
  ⟨reachable_run 140 140 _ (by decide!),
    hearts_length_le_maxHearts _ (reachable_run 140 140 _ (by decide!))⟩

/-- C9, refuted as stated: on a 30 by 30 canvas an active game with no hearts
and both draws 1/2 spawns the heart (-5, -5); no heart with
`0 <= x < canvasWidth - 40` has been appended. -/
theorem spawnHeart_range_counterexample :
    (initialWorld 30 30).gameState.isGameActive = true ∧
      (initialWorld 30 30).gameState.hearts.length < (initialWorld 30 30).config.maxHearts ∧
      (spawnHeart (1/2) (1/2) (initialWorld 30 30)).gameState.hearts =
        (initialWorld 30 30).gameState.hearts ++ [⟨-5, -5⟩] ∧
      ¬ ∃ h : Heart,
        (spawnHeart (1/2) (1/2) (initialWorld 30 30)).gameState.hearts =
            (initialWorld 30 30).gameState.hearts ++ [h] ∧
          0 ≤ h.x ∧ h.x < (initialWorld 30 30).config.canvasWidth - 40 := by
  refine ⟨by decide!, by decide!, by decide!, ?_⟩
  rintro ⟨h, -, h0, h1⟩
  have hw : (initialWorld 30 30).config.canvasWidth = 30 := rfl
  rw [hw] at h1
  linarith

/-- C9, amended: for draws in `[0, 1)`, when `isGameActive` is true and
`hearts.length < maxHearts`, `spawnHeart` appends exactly the heart
`(rx * (canvasWidth - 40), ry * (canvasHeight - 40))` at the end of `hearts`
and leaves the earlier hearts alone; its x lies in `[0, canvasWidth - 40)`
when `canvasWidth > 40` and its y in `[0, canvasHeight - 40)` when
`canvasHeight > 40`.  Otherwise `spawnHeart` changes nothing. -/
theorem spawnHeart_spec (w : World) (rx ry : ℚ)
    (hrx : 0 ≤ rx ∧ rx < 1) (hry : 0 ≤ ry ∧ ry < 1) :
    (w.gameState.isGameActive = true ∧ w.gameState.hearts.length < w.config.maxHearts →
        (spawnHeart rx ry w).gameState.hearts =
            w.gameState.hearts ++
              [⟨rx * (w.config.canvasWidth - 40), ry * (w.config.canvasHeight - 40)⟩] ∧
          (40 < w.config.canvasWidth →
            0 ≤ rx * (w.config.canvasWidth - 40) ∧
              rx * (w.config.canvasWidth - 40) < w.config.canvasWidth - 40) ∧
          (40 < w.config.canvasHeight →
            0 ≤ ry * (w.config.canvasHeight - 40) ∧
              ry * (w.config.canvasHeight - 40) < w.config.canvasHeight - 40)) ∧
      (¬ (w.gameState.isGameActive = true ∧
            w.gameState.hearts.length < w.config.maxHearts) →
        spawnHeart rx ry w = w) := by
  have hbound : ∀ r b : ℚ, 0 ≤ r → r < 1 → 40 < b → 0 ≤ r * (b - 40) ∧ r * (b - 40) < b - 40 := by
    intro r b h0 h1 hb
    have hpos : 0 < b - 40 := by linarith
    exact ⟨mul_nonneg h0 hpos.le, by nlinarith⟩
  constructor
  · rintro ⟨ha, hlen⟩
    refine ⟨?_, hbound rx _ hrx.1 hrx.2, hbound ry _ hry.1 hry.2⟩
    simp [spawnHeart, ha, not_le.mpr hlen]
  · intro hn
    unfold spawnHeart
    by_cases ha : w.gameState.isGameActive = true
    · have hlen : w.config.maxHearts ≤ w.gameState.hearts.length :=
        not_lt.mp (fun hlt => hn ⟨ha, hlt⟩)
      simp [ha, hlen]
    · simp [ha]

/-- C9 (amended) on the empty 140 by 140 canvas with draws 1/4 and 3/4: the
heart (25, 75) is appended. -/
theorem spawnHeart_spec_witness :
    ((0 : ℚ) ≤ 1/4 ∧ (1/4 : ℚ) < 1) ∧ ((0 : ℚ) ≤ 3/4 ∧ (3/4 : ℚ) < 1) ∧
      (spawnHeart (1/4) (3/4) (initialWorld 140 140)).gameState.hearts =
        (initialWorld 140 140).gameState.hearts ++ [⟨25, 75⟩] :=
  ⟨by decide!, by decide!,
    (((spawnHeart_spec (initialWorld 140 140) (1/4) (3/4) (by decide!) (by decide!)).1
      ⟨by decide!, by decide!⟩).1).trans (by decide!)⟩

/-- C10, refuted as stated: with the player at the right edge x = 10 of a
canvas 60 wide, a resize to width 30 leaves x = 0, not `newWidth - 50 = -20`. -/
theorem resize_right_edge_counterexample :
    narrowWorld.gameState.playerPosition.x = narrowWorld.config.canvasWidth - 50 ∧
      (resizeHandler (narrowWorld.config.canvasWidth - 30) 60
        narrowWorld).gameState.playerPosition.x = 0 ∧
      (resizeHandler (narrowWorld.config.canvasWidth - 30) 60
        narrowWorld).gameState.playerPosition.x ≠
        (resizeHandler (narrowWorld.config.canvasWidth - 30) 60
          narrowWorld).config.canvasWidth - 50 := by
  decide!

/-- C10, amended: for every state and every resize, x and y are re-clamped
into `[0, max 0 (newWidth - 50)]` and `[0, max 0 (newHeight - 50)]`, and
score, hearts, `isGameActive` and the number of collision passes are
unchanged.  With the player at `x = canvasWidth - 50` and
`canvasWidth >= 80`, a resize that shrinks the width by 30 leaves
`x = newWidth - 50`. -/
theorem resizeHandler_spec (w : World) (width height : ℚ) :
    (0 ≤ (resizeHandler width height w).gameState.playerPosition.x ∧
        (resizeHandler width height w).gameState.playerPosition.x ≤ max 0 (width - 50) ∧
        0 ≤ (resizeHandler width height w).gameState.playerPosition.y ∧
        (resizeHandler width height w).gameState.playerPosition.y ≤ max 0 (height - 50)) ∧
      (resizeHandler width height w).gameState.score = w.gameState.score ∧
      (resizeHandler width height w).gameState.hearts = w.gameState.hearts ∧
      (resizeHandler width height w).gameState.isGameActive = w.gameState.isGameActive ∧
      (resizeHandler width height w).checkCollisionsCalls = w.checkCollisionsCalls ∧
      (resizeHandler width height w).winGameCalls = w.winGameCalls ∧
      (w.gameState.playerPosition.x = w.config.canvasWidth - 50 →
        80 ≤ w.config.canvasWidth →
        (resizeHandler (w.config.canvasWidth - 30) height w).gameState.playerPosition.x =
          (resizeHandler (w.config.canvasWidth - 30) height w).config.canvasWidth - 50) := by
  refine ⟨⟨clampAxis_nonneg _ _, clampAxis_le _ _, clampAxis_nonneg _ _, clampAxis_le _ _⟩,
    rfl, rfl, rfl, rfl, rfl, ?_⟩
  intro hx hw
  simp only [resizeHandler, clampAxis, hx]
  rw [min_eq_left (by linarith), max_eq_right (by linarith)]

/-- C10 (amended) on the 140 wide canvas with score 1 and a live heart at
(25, 50): when the width shrinks to 110 the player goes from x = 90 to
x = 60, where it touches the heart, and the heart and the score stay,
since no collision pass runs. -/
theorem resizeHandler_spec_witness :
    (rightEdgeWorld.gameState.playerPosition.x = rightEdgeWorld.config.canvasWidth - 50 ∧
        80 ≤ rightEdgeWorld.config.canvasWidth) ∧
      (resizeHandler (rightEdgeWorld.config.canvasWidth - 30) 140
          rightEdgeWorld).gameState.playerPosition.x = 60 ∧
      (resizeHandler 110 140 rightEdgeWorld).gameState.hearts = [⟨25, 50⟩] ∧
      (resizeHandler 110 140 rightEdgeWorld).gameState.score = 1 ∧
      isColliding (resizeHandler 110 140 rightEdgeWorld).gameState.playerPosition ⟨25, 50⟩ =
        true :=
  ⟨⟨by decide!, by decide!⟩,
    ((resizeHandler_spec rightEdgeWorld 110 140).2.2.2.2.2.2 (by decide!) (by decide!)).trans
      (by decide!),
    (resizeHandler_spec rightEdgeWorld 110 140).2.2.1.trans (by decide!),
    (resizeHandler_spec rightEdgeWorld 110 140).2.1.trans (by decide!),
    by decide!⟩

end Game
